import Mathlib

/-!
Verification of the mem_edit process-memory library (PyWebMem repository).

The development shallowly embeds the Python source of `mem_edit` into Lean:
byte buffers become `List Nat` (each entry a byte value), the target
process's address space becomes a partial map `Nat → Option Nat`, Python
exceptions become an explicit `PyErr` error type threaded through `Except`,
and each Python function of interest is translated into an executable Lean
definition that mirrors the source line by line.  Theorems then settle the
specified properties against these definitions.
-/

/-- Python exception classes that the embedded code can raise. -/
inductive PyErr where
  | typeError
  | attributeError
  | osError
  | fileNotFoundError
  | notImplementedError
  | memEditError
  | recursionError
  deriving DecidableEq

/-- Returns `true` exactly when an embedded call ended in a raised exception. -/
def failed {α : Type} : Except PyErr α → Bool
  | Except.error _ => true
  | Except.ok _ => false

/- ===================================================================
   Byte-level search: `utils.search_buffer_verbatim`
   (`bytes(haystack).find(needle, start)` loop with `start = hit + 1`).
   =================================================================== -/

/-- The `w` bytes of `h` starting at offset `i` (Python slice `h[i : i+w]`,
which clamps at the end of the buffer). -/
def windowAt (h : List Nat) (i w : Nat) : List Nat := (h.drop i).take w

/-- Whether the needle's bytes occur in `h` at offset `i`: the Python
comparison `h[i : i + len(nb)] == nb` used by `bytes.find`. -/
def occursAt (nb h : List Nat) (i : Nat) : Bool := windowAt h i nb.length == nb

/-- Model of `bytes.find(needle, start)`: the least offset `i ≥ start` at which the
needle occurs, `none` when there is no such offset (Python returns `-1`). -/
def pyFind (nb h : List Nat) (start : Nat) : Option Nat :=
  ((List.range' start (h.length + 1 - start)).filter (occursAt nb h)).head?

/-- The `while start < len(haystack) and result != -1` loop of
`search_buffer_verbatim`: record the hit and resume from `hit + 1`.  The
fuel argument only bounds the iteration count; `h.length + 1` iterations
always suffice because the scan position strictly increases. -/
def sbvLoop (nb h : List Nat) : Nat → Nat → List Nat
  | 0, _ => []
  | fuel + 1, start =>
    if start < h.length then
      match pyFind nb h start with
      | some r => r :: sbvLoop nb h fuel (r + 1)
      | none => []
    else []

/-- Embedding of `utils.search_buffer_verbatim(needle_buffer, haystack_buffer)`:
byte-for-byte search of the needle's raw bytes inside the haystack's. -/
def searchBufferVerbatim (nb h : List Nat) : List Nat := sbvLoop nb h (h.length + 1) 0

lemma head_filter_range'_some {p : Nat → Bool} :
    ∀ (k s r : Nat), ((List.range' s k).filter p).head? = some r →
      s ≤ r ∧ r < s + k ∧ p r = true ∧ ∀ j, s ≤ j → j < r → p j = false := by
  intro k
  induction k with
  | zero => intro s r h; simp [List.range'] at h
  | succ k ih =>
    intro s r h
    rw [List.range'_succ, List.filter_cons] at h
    by_cases hp : p s
    · simp only [hp, if_true, List.head?_cons, Option.some.injEq] at h
      subst h
      exact ⟨le_refl s, by omega, hp, fun j h1 h2 => absurd (lt_of_le_of_lt h1 h2) (lt_irrefl s)⟩
    · simp only [hp, if_false, Bool.false_eq_true] at h
      obtain ⟨h1, h2, h3, h4⟩ := ih (s + 1) r h
      refine ⟨by omega, by omega, h3, fun j hj1 hj2 => ?_⟩
      rcases Nat.eq_or_lt_of_le hj1 with heq | hlt
      · subst heq; exact Bool.eq_false_iff.mpr hp
      · exact h4 j hlt hj2

lemma head_filter_range'_none {p : Nat → Bool} (k s : Nat)
    (h : ((List.range' s k).filter p).head? = none) :
    ∀ j, s ≤ j → j < s + k → p j = false := by
  rw [List.head?_eq_none_iff, List.filter_eq_nil_iff] at h
  intro j h1 h2
  exact Bool.eq_false_iff.mpr (h j (List.mem_range'_1.mpr ⟨h1, h2⟩))

lemma occursAt_length_le {nb h : List Nat} {i : Nat} (hnb : nb ≠ [])
    (hocc : occursAt nb h i = true) : i + nb.length ≤ h.length := by
  have hw : windowAt h i nb.length = nb := by
    simpa [occursAt] using hocc
  have hlen : (windowAt h i nb.length).length = nb.length := by rw [hw]
  simp only [windowAt, List.length_take, List.length_drop] at hlen
  have hpos : 1 ≤ nb.length := by
    cases nb with
    | nil => exact absurd rfl hnb
    | cons a t => simp
  omega

/-- Closed form of the verbatim-search loop: all matching offsets in
`[start, h.length)`, in increasing order. -/
lemma sbvLoop_eq_filter (nb h : List Nat) (hnb : nb ≠ []) :
    ∀ fuel start, h.length - start ≤ fuel →
      sbvLoop nb h fuel start = (List.range' start (h.length - start)).filter (occursAt nb h) := by
  intro fuel
  induction fuel with
  | zero =>
    intro start hle
    have : h.length - start = 0 := by omega
    simp [sbvLoop, this, List.range']
  | succ fuel ih =>
    intro start hle
    by_cases hs : start < h.length
    · unfold sbvLoop
      simp only [hs, if_true]
      cases hfind : pyFind nb h start with
      | none =>
        have hnone := head_filter_range'_none _ _ hfind
        rw [eq_comm, List.filter_eq_nil_iff]
        intro j hj
        have := List.mem_range'_1.mp hj
        simp only [Bool.not_eq_true]
        exact hnone j this.1 (by omega)
      | some r =>
        obtain ⟨hr1, hr2, hr3, hr4⟩ := head_filter_range'_some _ _ _ hfind
        have hrlen : r + nb.length ≤ h.length := occursAt_length_le hnb hr3
        have hpos : 1 ≤ nb.length := by
          cases nb with
          | nil => exact absurd rfl hnb
          | cons a t => simp
        have hrlt : r < h.length := by omega
        show r :: sbvLoop nb h fuel (r + 1)
          = (List.range' start (h.length - start)).filter (occursAt nb h)
        rw [ih (r + 1) (by omega)]
        have hsplit : List.range' start (r - start) ++ List.range' r (h.length - r)
            = List.range' start (h.length - start) := by
          have := List.range'_append start (r - start) (h.length - r) 1
          simp only [one_mul] at this
          rw [show start + (r - start) = r by omega] at this
          rw [show h.length - r + (r - start) = h.length - start by omega] at this
          exact this
        rw [← hsplit, List.filter_append]
        have hleft : (List.range' start (r - start)).filter (occursAt nb h) = [] := by
          rw [List.filter_eq_nil_iff]
          intro j hj
          have := List.mem_range'_1.mp hj
          simp only [Bool.not_eq_true]
          exact hr4 j this.1 (by omega)
        rw [hleft, List.nil_append]
        have hsucc : h.length - r = (h.length - (r + 1)) + 1 := by omega
        rw [hsucc, List.range'_succ, List.filter_cons]
        simp [hr3]
    · have h0 : h.length - start = 0 := by omega
      unfold sbvLoop
      simp [hs, h0, List.range']

/-- Function `search_buffer_verbatim` returns exactly the offsets at which the
needle's bytes occur, scanning left to right. -/
lemma searchBufferVerbatim_eq_filter (nb h : List Nat) (hnb : nb ≠ []) :
    searchBufferVerbatim nb h = (List.range h.length).filter (occursAt nb h) := by
  unfold searchBufferVerbatim
  rw [sbvLoop_eq_filter nb h hnb (h.length + 1) 0 (by omega)]
  rw [List.range_eq_range']
  simp

/-- C4: for every non-empty needle, `search_buffer_verbatim` returns, in
increasing order, exactly the offsets at which the needle's byte
representation occurs in the haystack, overlapping occurrences included
(after a hit at offset `r` the scan resumes from `r + 1`). -/
theorem searchBufferVerbatim_exact (nb h : List Nat) (hnb : nb ≠ []) :
    searchBufferVerbatim nb h = (List.range h.length).filter (occursAt nb h)
      ∧ List.Pairwise (· < ·) (searchBufferVerbatim nb h) := by
  refine ⟨searchBufferVerbatim_eq_filter nb h hnb, ?_⟩
  rw [searchBufferVerbatim_eq_filter nb h hnb]
  exact List.Pairwise.sublist (List.filter_sublist _) (List.pairwise_lt_range h.length)

/-- Witness for C4 at the spec's own example: needle `AA` in haystack
`AAA` (byte 65 is `A`) yields the overlapping offsets `[0, 1]`. -/
theorem searchBufferVerbatim_exact_witness :
    (([65, 65] : List Nat) ≠ [])
      ∧ (searchBufferVerbatim [65, 65] [65, 65, 65]
            = (List.range 3).filter (occursAt [65, 65] [65, 65, 65])
          ∧ List.Pairwise (· < ·) (searchBufferVerbatim [65, 65] [65, 65, 65]))
      ∧ searchBufferVerbatim [65, 65] [65, 65, 65] = [0, 1] := by
  refine ⟨by decide, ?_, by decide⟩
  have := searchBufferVerbatim_exact [65, 65] [65, 65, 65] (by decide)
  simpa using this

/- ===================================================================
   ctypes value model and `utils.ctypes_equal`.

   A ctypes buffer is a scalar (`ctypes._SimpleCData` with a type name
   and byte width), a fixed-length array, or a Structure/Union value (a
   named record of fields).  Attribute access `getattr(struct, name)` on
   a field of simple type yields a plain Python int, not a ctypes
   object; access on an array or nested record field yields the ctypes
   object itself.  `PyVal` captures both possibilities.
   =================================================================== -/

/-- Shape (Python type) of a ctypes value. -/
inductive CtType where
  | scalarTy (name : String) (w : Nat)
  | arrTy (elem : CtType) (n : Nat)
  | structTy (name : String)
  deriving DecidableEq

mutual
/-- A ctypes value: scalar with stored value, array of values, or a
Structure/Union with named fields. -/
inductive CtVal where
  | scalar (tyName : String) (w : Nat) (value : Int)
  | arr (elemTy : CtType) (elems : List CtVal)
  | strct (tyName : String) (fields : List CtField)

/-- One named field of a Structure/Union value. -/
inductive CtField where
  | mk (name : String) (val : CtVal)
end

/-- A Python value as seen by `ctypes_equal`'s recursion: either a plain
Python int (produced by attribute access on a simple-typed field) or a
ctypes object. -/
inductive PyVal where
  | pyInt (n : Int)
  | ct (v : CtVal)

/-- Python `type(x)` for the values above. -/
inductive PyType where
  | intTy
  | ctTy (t : CtType)
  deriving DecidableEq

/-- Python type of a ctypes value. -/
def typeOfCt : CtVal → CtType
  | CtVal.scalar n w _ => CtType.scalarTy n w
  | CtVal.arr t es => CtType.arrTy t es.length
  | CtVal.strct n _ => CtType.structTy n

/-- Python type of a `PyVal`. -/
def typeOfPy : PyVal → PyType
  | PyVal.pyInt _ => PyType.intTy
  | PyVal.ct v => PyType.ctTy (typeOfCt v)

/-- Model of `getattr(obj, field_name)` and array indexing conversion: a simple-typed
ctypes value converts to its plain Python value, everything else stays a
ctypes object. -/
def fieldPy : CtVal → PyVal
  | CtVal.scalar _ _ n => PyVal.pyInt n
  | v => PyVal.ct v

/-- Python `==` between two element values of a sliced ctypes array.
Plain ints compare by value; ctypes objects define no `__eq__`, and the
slices produce fresh wrapper objects, so identity comparison yields
`False`. -/
def pyEq : PyVal → PyVal → Bool
  | PyVal.pyInt m, PyVal.pyInt n => m == n
  | _, _ => false

/-- Python `list == list` for the results of slicing two ctypes arrays. -/
def pyListEq : List PyVal → List PyVal → Bool
  | [], [] => true
  | x :: xs, y :: ys => pyEq x y && pyListEq xs ys
  | _, _ => false

/-- Model of `getattr(b, attr_name)` for a field name against a field list. -/
def fieldLookup : List CtField → String → Option CtVal
  | [], _ => none
  | CtField.mk n v :: rest, q => if n = q then some v else fieldLookup rest q

/-- Run a monadic predicate over a list, stopping at the first `false` or
raised exception (the `for ... if not ...: return False` loop shape). -/
def exceptAll {α : Type} (f : α → Except PyErr Bool) : List α → Except PyErr Bool
  | [] => Except.ok true
  | x :: rest =>
    match f x with
    | Except.error e => Except.error e
    | Except.ok false => Except.ok false
    | Except.ok true => exceptAll f rest

/-- Embedding of `utils.ctypes_equal(a, b)`, fuel-indexed.  Faithful to the source:

* `if not type(a) == type(b): return False`;
* arrays compare as `a[:] == b[:]` (Python list equality over the sliced
  elements, see `pyEq`);
* Structure/Union values loop over `a._fields_`; because the source tests
  `isinstance(a, ctypes_buffer_t)` — `a`, not `a_attr` — the test is
  always true and every field is compared by a recursive call, so a
  simple-typed field (a plain int after `getattr`) reaches the final
  `a.value == b.value` branch, and `int` has no `.value` attribute:
  `AttributeError`;
* scalars compare `a.value == b.value`.

The fuel only bounds the recursion depth (Python's stack); it decreases
once per nested Structure level, so any fuel larger than the value's
nesting depth gives the Python behaviour. -/
def ctypesEqualF : Nat → PyVal → PyVal → Except PyErr Bool
  | fuel, a, b =>
    if typeOfPy a ≠ typeOfPy b then Except.ok false
    else
      match a, b with
      | PyVal.ct (CtVal.arr _ ea), PyVal.ct (CtVal.arr _ eb) =>
        Except.ok (pyListEq (ea.map fieldPy) (eb.map fieldPy))
      | PyVal.ct (CtVal.strct _ fa), PyVal.ct (CtVal.strct _ fb) =>
        (match fuel with
         | 0 => Except.error PyErr.recursionError
         | fuel' + 1 =>
           exceptAll (fun fld =>
             match fld with
             | CtField.mk nm va =>
               match fieldLookup fb nm with
               | none => Except.error PyErr.attributeError
               | some vb => ctypesEqualF fuel' (fieldPy va) (fieldPy vb)) fa)
      | PyVal.ct (CtVal.scalar _ _ va), PyVal.ct (CtVal.scalar _ _ vb) =>
        Except.ok (decide (va = vb))
      | _, _ => Except.error PyErr.attributeError

/-- CPython's default recursion limit (`sys.getrecursionlimit()`). -/
def pyRecursionLimit : Nat := 1000

/-- Embedding of `utils.ctypes_equal(a, b)`: the recursion depth available to the
Python call is the interpreter's recursion limit. -/
def ctypesEqual (a b : PyVal) : Except PyErr Bool := ctypesEqualF pyRecursionLimit a b

/-- The comparison the spec describes for structural search: scalars by
value, arrays element-wise, nested records recursively, never raising.
The fuel only makes the recursion through nested lists definable; it is
never exhausted on values whose nesting is below the interpreter's
recursion limit. -/
def semEqF : Nat → CtVal → CtVal → Bool
  | 0, _, _ => false
  | fuel + 1, a, b =>
    match a, b with
    | CtVal.scalar n1 w1 v1, CtVal.scalar n2 w2 v2 =>
      decide (n1 = n2) && decide (w1 = w2) && decide (v1 = v2)
    | CtVal.arr t1 es1, CtVal.arr t2 es2 =>
      decide (t1 = t2) && decide (es1.length = es2.length)
        && (List.zip es1 es2).all (fun p => semEqF fuel p.1 p.2)
    | CtVal.strct n1 fs1, CtVal.strct n2 fs2 =>
      decide (n1 = n2) && decide (fs1.length = fs2.length)
        && (List.zip fs1 fs2).all (fun p =>
             match p with
             | (CtField.mk m1 u1, CtField.mk m2 u2) => decide (m1 = m2) && semEqF fuel u1 u2)
    | _, _ => false

/-- Semantic (shape-directed) equality of two ctypes values, as the spec
states it for structural comparison. -/
def semEq (a b : CtVal) : Bool := semEqF pyRecursionLimit a b

/-- A Structure value with one simple-typed field, `x : c_int = 5`. -/
def sIntField : CtVal := CtVal.strct "S" [CtField.mk "x" (CtVal.scalar "c_int" 4 5)]

/-- C8: `ctypes_equal` is claimed to compare record fields with scalars
by value and never raise; in fact, comparing a Structure that has a
simple-typed field with an identical Structure raises `AttributeError`
(the source tests `isinstance(a, ...)` instead of `isinstance(a_attr, ...)`,
so the plain int produced by `getattr` is fed back into `ctypes_equal`,
whose final branch evaluates `a.value` on an int).  The spec-described
comparison on the same pair is `True`. -/
theorem ctypesEqual_raises_on_simple_struct_field :
    ctypesEqual (PyVal.ct sIntField) (PyVal.ct sIntField) = Except.error PyErr.attributeError
      ∧ semEq sIntField sIntField = true := by
  constructor
  · rfl
  · rfl

/- ===================================================================
   Structural search: `utils.search_buffer` for scalar needles.

   `search_buffer` iterates `offset in range(0, len(haystack) - sizeof(needle))`,
   reinterprets the window with `read_type.from_buffer(haystack, offset)`
   and compares with `ctypes_equal`.  The haystacks it is applied to
   (`search_all_memory`) are `c_byte` arrays, so `len` is the byte length.
   For a scalar needle, `from_buffer` reads the `w` window bytes as the
   scalar's (little-endian, optionally sign-extended) value and
   `ctypes_equal` takes its `a.value == b.value` branch.
   =================================================================== -/

/-- Little-endian interpretation of a byte list as an unsigned number. -/
def decodeLE : List Nat → Nat
  | [] => 0
  | b :: rest => b + 256 * decodeLE rest

/-- The Python value of a scalar ctypes type of width `w` over the given
bytes: unsigned types keep the little-endian value, signed types
sign-extend (two's complement). -/
def decodeScalar (signed : Bool) (w : Nat) (bs : List Nat) : Int :=
  let u := decodeLE bs
  if signed && decide (2 ^ (8 * w - 1) ≤ u) then (u : Int) - 2 ^ (8 * w) else (u : Int)

/-- The per-offset loop body of `search_buffer`, specialised to a scalar
needle: build the window value with `from_buffer` and compare with
`ctypes_equal`; a raised comparison error propagates. -/
def searchBufferGo (tyName : String) (signed : Bool) (w : Nat) (needleVal : Int)
    (h : List Nat) : List Nat → Except PyErr (List Nat)
  | [] => Except.ok []
  | off :: rest =>
    match ctypesEqual (PyVal.ct (CtVal.scalar tyName w needleVal))
        (PyVal.ct (CtVal.scalar tyName w (decodeScalar signed w (windowAt h off w)))) with
    | Except.error e => Except.error e
    | Except.ok m =>
      match searchBufferGo tyName signed w needleVal h rest with
      | Except.error e => Except.error e
      | Except.ok tail => Except.ok (if m then off :: tail else tail)

/-- Embedding of `utils.search_buffer(needle_buffer, haystack_buffer)` for a scalar
needle of width `w`: note the offset range `range(0, len(haystack) - w)`,
which excludes the final window offset `len(haystack) - w`. -/
def searchBuffer (tyName : String) (signed : Bool) (w : Nat) (needleVal : Int)
    (h : List Nat) : Except PyErr (List Nat) :=
  searchBufferGo tyName signed w needleVal h (List.range (h.length - w))

lemma ctypesEqual_scalar (t : String) (w : Nat) (v1 v2 : Int) :
    ctypesEqual (PyVal.ct (CtVal.scalar t w v1)) (PyVal.ct (CtVal.scalar t w v2))
      = Except.ok (decide (v1 = v2)) := by
  simp [ctypesEqual, ctypesEqualF, typeOfPy, typeOfCt]

lemma searchBufferGo_eq_filter (t : String) (signed : Bool) (w : Nat) (nv : Int)
    (h : List Nat) (offs : List Nat) :
    searchBufferGo t signed w nv h offs
      = Except.ok (offs.filter fun off => decide (nv = decodeScalar signed w (windowAt h off w))) := by
  induction offs with
  | nil => rfl
  | cons off rest ih =>
    unfold searchBufferGo
    rw [ctypesEqual_scalar, ih, List.filter_cons]

lemma decodeLE_lt : ∀ (bs : List Nat), (∀ b ∈ bs, b < 256) → decodeLE bs < 256 ^ bs.length := by
  intro bs
  induction bs with
  | nil => intro _; simp [decodeLE]
  | cons b rest ih =>
    intro hb
    have h1 : b < 256 := hb b (List.mem_cons_self b rest)
    have h2 : decodeLE rest < 256 ^ rest.length := ih (fun x hx => hb x (List.mem_cons_of_mem b hx))
    simp only [decodeLE, List.length_cons, pow_succ]
    have : 256 ^ rest.length * 256 = 256 * 256 ^ rest.length := by ring
    rw [this]
    omega

lemma decodeLE_injOn : ∀ (l1 l2 : List Nat), l1.length = l2.length →
    (∀ b ∈ l1, b < 256) → (∀ b ∈ l2, b < 256) → decodeLE l1 = decodeLE l2 → l1 = l2 := by
  intro l1
  induction l1 with
  | nil =>
    intro l2 hlen _ _ _
    cases l2 with
    | nil => rfl
    | cons c t => simp at hlen
  | cons b r ih =>
    intro l2 hlen hb1 hb2 heq
    cases l2 with
    | nil => simp at hlen
    | cons c t =>
      simp only [decodeLE] at heq
      have h1 : b < 256 := hb1 b (List.mem_cons_self b r)
      have h2 : c < 256 := hb2 c (List.mem_cons_self c t)
      have hbc : b = c ∧ decodeLE r = decodeLE t := by omega
      have ht : r = t := by
        refine ih t ?_ (fun x hx => hb1 x (List.mem_cons_of_mem b hx))
          (fun x hx => hb2 x (List.mem_cons_of_mem c hx)) hbc.2
        simpa using hlen
      rw [hbc.1, ht]

lemma decodeScalar_injOn (signed : Bool) (w : Nat) (hw : 0 < w) (l1 l2 : List Nat)
    (h1 : l1.length = w) (h2 : l2.length = w)
    (hb1 : ∀ b ∈ l1, b < 256) (hb2 : ∀ b ∈ l2, b < 256)
    (heq : decodeScalar signed w l1 = decodeScalar signed w l2) : l1 = l2 := by
  apply decodeLE_injOn l1 l2 (by omega) hb1 hb2
  have hu1 : decodeLE l1 < 256 ^ w := h1 ▸ decodeLE_lt l1 hb1
  have hu2 : decodeLE l2 < 256 ^ w := h2 ▸ decodeLE_lt l2 hb2
  have h256 : (256 : Nat) = 2 ^ 8 := by norm_num
  have hM1 : (256 : Nat) ^ w = 2 ^ (8 * w) := by rw [h256, ← pow_mul]
  have hsplit : 2 ^ (8 * w) = 2 ^ (8 * w - 1) * 2 := by
    rw [← pow_succ]
    congr 1
    omega
  simp only [decodeScalar] at heq
  cases signed with
  | false =>
    simp only [Bool.false_and, if_false, Bool.false_eq_true] at heq
    exact_mod_cast heq
  | true =>
    simp only [Bool.true_and] at heq
    set u1 := decodeLE l1 with hu1def
    set u2 := decodeLE l2 with hu2def
    rw [hM1] at hu1 hu2
    by_cases c1 : 2 ^ (8 * w - 1) ≤ u1 <;> by_cases c2 : 2 ^ (8 * w - 1) ≤ u2
    · rw [if_pos (by simpa using c1), if_pos (by simpa using c2)] at heq
      have : (u1 : Int) = u2 := by omega
      exact_mod_cast this
    · rw [if_pos (by simpa using c1), if_neg (by simpa using c2)] at heq
      exfalso
      have hgt : (u1 : Int) - 2 ^ (8 * w) < 0 := by
        have : (u1 : Int) < 2 ^ (8 * w) := by exact_mod_cast hu1
        omega
      have hge : (0 : Int) ≤ u2 := Int.ofNat_nonneg u2
      omega
    · rw [if_neg (by simpa using c1), if_pos (by simpa using c2)] at heq
      exfalso
      have hgt : (u2 : Int) - 2 ^ (8 * w) < 0 := by
        have : (u2 : Int) < 2 ^ (8 * w) := by exact_mod_cast hu2
        omega
      have hge : (0 : Int) ≤ u1 := Int.ofNat_nonneg u1
      omega
    · rw [if_neg (by simpa using c1), if_neg (by simpa using c2)] at heq
      exact_mod_cast heq

lemma range_filter_lt (m : Nat) : ∀ (n : Nat), m ≤ n →
    (List.range n).filter (fun i => decide (i < m)) = List.range m := by
  intro n
  induction n with
  | zero =>
    intro hmn
    have : m = 0 := by omega
    simp [this]
  | succ n ih =>
    intro hmn
    rcases Nat.eq_or_lt_of_le hmn with heq | hlt
    · subst heq
      rw [List.filter_eq_self.mpr]
      intro a ha
      simpa using List.mem_range.mp ha
    · have hnm : ¬ (n < m) := by omega
      simp only [List.range_succ, List.filter_append, ih (by omega), List.filter_cons,
        List.filter_nil, hnm, decide_eq_true_eq, if_false]
      simp [hnm]

/-- C3 (amended): for a padding-free (scalar) needle, structural search
returns exactly the verbatim-search offsets except that its offset loop
`range(0, len(haystack) - sizeof(needle))` stops one short, so a match at
the final window offset `len(haystack) - sizeof(needle)` is dropped. -/
theorem searchBuffer_agrees_with_verbatim_except_last (tyName : String) (signed : Bool)
    (w : Nat) (nb h : List Nat) (hw : 0 < w) (hlen : nb.length = w)
    (hnb : ∀ b ∈ nb, b < 256) (hh : ∀ b ∈ h, b < 256) :
    searchBuffer tyName signed w (decodeScalar signed w nb) h
      = Except.ok ((searchBufferVerbatim nb h).filter fun i => decide (i + w < h.length)) := by
  have hnbne : nb ≠ [] := by
    intro hcon
    rw [hcon] at hlen
    simp at hlen
    omega
  rw [searchBufferVerbatim_eq_filter nb h hnbne]
  unfold searchBuffer
  rw [searchBufferGo_eq_filter, List.filter_filter]
  rw [← range_filter_lt (h.length - w) h.length (by omega), List.filter_filter]
  congr 1
  apply List.filter_congr
  intro i hi
  have hilt : i < h.length := List.mem_range.mp hi
  by_cases hiw : i + w < h.length
  · have h1 : i < h.length - w := by omega
    have hwin_len : (windowAt h i w).length = w := by
      simp only [windowAt, List.length_take, List.length_drop]
      omega
    have hwin_b : ∀ b ∈ windowAt h i w, b < 256 := by
      intro b hb
      exact hh b (List.drop_subset i h (List.take_subset w _ hb))
    by_cases heq2 : windowAt h i w = nb
    · have hvals : decodeScalar signed w nb = decodeScalar signed w (windowAt h i w) := by
        rw [heq2]
      simp [occursAt, hlen, h1, hiw, heq2, hvals]
    · have hvals : decodeScalar signed w nb ≠ decodeScalar signed w (windowAt h i w) := by
        intro hc
        exact heq2 (decodeScalar_injOn signed w hw (windowAt h i w) nb hwin_len hlen
          hwin_b hnb hc.symm)
      simp [occursAt, hlen, h1, hiw, heq2, hvals]
  · have h1 : ¬ (i < h.length - w) := by omega
    simp [h1, hiw]

/-- C3 counterexample: a one-byte scalar needle (`c_byte(7)`) occurring
exactly at the last valid offset of the haystack `[7]`.  Verbatim search
reports offset 0; structural search's `range(0, 1 - 1)` is empty, so the
two disagree on a padding-free needle. -/
theorem searchBuffer_misses_last_offset :
    searchBuffer "c_byte" true 1 (decodeScalar true 1 [7]) [7] = Except.ok []
      ∧ searchBufferVerbatim [7] [7] = [0]
      ∧ Except.ok (searchBufferVerbatim [7] [7]) ≠
          searchBuffer "c_byte" true 1 (decodeScalar true 1 [7]) [7] := by
  refine ⟨rfl, by decide, ?_⟩
  intro hcon
  rw [show searchBuffer "c_byte" true 1 (decodeScalar true 1 [7]) [7] = Except.ok [] from rfl,
    show searchBufferVerbatim [7] [7] = [0] by decide] at hcon
  simp at hcon

/-- Witness for the amended C3 theorem at a concrete scalar search:
needle `c_byte(7)` over haystack `[5, 7, 7]` — the verbatim offsets are
`[1, 2]` and structural search returns `[1]`, dropping only the final
offset. -/
theorem searchBuffer_agrees_witness :
    (0 < 1 ∧ ([7] : List Nat).length = 1
        ∧ (∀ b ∈ ([7] : List Nat), b < 256) ∧ (∀ b ∈ ([5, 7, 7] : List Nat), b < 256))
      ∧ searchBuffer "c_byte" true 1 (decodeScalar true 1 [7]) [5, 7, 7]
          = Except.ok ((searchBufferVerbatim [7] [5, 7, 7]).filter fun i => decide (i + 1 < 3))
      ∧ searchBufferVerbatim [7] [5, 7, 7] = [1, 2] := by
  refine ⟨⟨by decide, by decide, by decide, by decide⟩, ?_, by decide⟩
  have := searchBuffer_agrees_with_verbatim_except_last "c_byte" true 1 [7] [5, 7, 7]
    (by decide) (by decide) (by decide) (by decide)
  simpa using this

/- ===================================================================
   OS model shared by the backends: a target address space is a partial
   map from addresses to bytes; reading or writing a range succeeds only
   when every address of the range is mapped.
   =================================================================== -/

/-- Read `n` bytes starting at `addr`; `none` when any byte of the range
is unmapped. -/
def readRange (mem : Nat → Option Nat) (addr : Nat) : Nat → Option (List Nat)
  | 0 => some []
  | n + 1 =>
    match mem addr, readRange mem (addr + 1) n with
    | some b, some rest => some (b :: rest)
    | _, _ => none

/-- Write the bytes `bs` at `addr`; `none` when any byte of the range is
unmapped (the kernel refuses the access). -/
def writeBytes (mem : Nat → Option Nat) (addr : Nat) (bs : List Nat) : Option (Nat → Option Nat) :=
  match readRange mem addr bs.length with
  | none => none
  | some _ => some (fun a => if addr ≤ a ∧ a < addr + bs.length then bs.get? (a - addr) else mem a)

/- ===================================================================
   Linux backend (`linux.py`).  The handle state is `self.pid`, an
   `Option Nat`: `close()` ends with `self.pid = None`, after which the
   formatted `/proc` paths name no process (`'/proc/None/...'`).
   =================================================================== -/

/-- The visible `/proc` state of the machine: per-pid memory map and
per-pid parsed `maps` lines `(start, stop, readable, writable)`. -/
structure ProcFS where
  procMem : Nat → Option (Nat → Option Nat)
  procMaps : Nat → Option (List (Nat × Nat × Bool × Bool))

/-- Embedding of `linux.Process.read_memory`: open `/proc/<pid>/mem`, seek, `readinto`.
A `None` pid formats to a path that exists for no process
(`FileNotFoundError`); a seek+read into an unmapped page fails with an
I/O `OSError`, which propagates (there is no handler in the source). -/
def linuxReadMemory (fs : ProcFS) (pid : Option Nat) (addr n : Nat) : Except PyErr (List Nat) :=
  match pid with
  | none => Except.error PyErr.fileNotFoundError
  | some p =>
    match fs.procMem p with
    | none => Except.error PyErr.fileNotFoundError
    | some mem =>
      match readRange mem addr n with
      | some bs => Except.ok bs
      | none => Except.error PyErr.osError

/-- Embedding of `linux.Process.list_mapped_regions`: parse `/proc/<pid>/maps`,
keep a region only when readable, and only when writable if
`writeable_only` is set. -/
def linuxListMappedRegions (fs : ProcFS) (pid : Option Nat) (writeableOnly : Bool) :
    Except PyErr (List (Nat × Nat)) :=
  match pid with
  | none => Except.error PyErr.fileNotFoundError
  | some p =>
    match fs.procMaps p with
    | none => Except.error PyErr.fileNotFoundError
    | some lines =>
      Except.ok ((lines.filter fun l => l.2.2.1 && (!writeableOnly || l.2.2.2)).map
        fun l => (l.1, l.2.1))

/-- Embedding of `linux.Process.close`: `kill(SIGSTOP)`, `waitpid`, `ptrace(DETACH)`,
`kill(SIGCONT)`, then `self.pid = None`.  `os.kill(None, ...)` raises
`TypeError`; a dead target raises `ProcessLookupError` (an `OSError`),
leaving `self.pid` unassigned. -/
def linuxClose (alive : Nat → Bool) : Option Nat → Except PyErr Unit × Option Nat
  | none => (Except.error PyErr.typeError, none)
  | some p => if alive p then (Except.ok (), none) else (Except.error PyErr.osError, some p)

/- `linux.Process.write_memory` is defined twice in the class body with
different signatures; Python executes the class body top to bottom, so
the second binding replaces the first in the class dict and only the
second is callable. -/

/-- Marker for which of the two same-named definitions a name resolves to. -/
inductive WriteMemoryDef where
  | firstDef
  | secondDef
  deriving DecidableEq

/-- Python name resolution for `linux.Process.write_memory`: the later
`def` wins. -/
def linuxClassWriteMemory : WriteMemoryDef := WriteMemoryDef.secondDef

/-- The first (shadowed, unreachable) definition: seek and write the
buffer into `/proc/<pid>/mem`. -/
def linuxWriteMemoryFirstDef (fs : ProcFS) (pid : Option Nat) (addr : Nat) (buf : List Nat) :
    Except PyErr Unit × ProcFS :=
  match pid with
  | none => (Except.error PyErr.fileNotFoundError, fs)
  | some p =>
    match fs.procMem p with
    | none => (Except.error PyErr.fileNotFoundError, fs)
    | some mem =>
      match writeBytes mem addr buf with
      | some mem2 => (Except.ok (), ⟨fun q => if q = p then some mem2 else fs.procMem q, fs.procMaps⟩)
      | none => (Except.error PyErr.osError, fs)

/-- The second definition (the one the class dict keeps): its body is
`raise NotImplementedError`. -/
def linuxWriteMemorySecondDef (fs : ProcFS) (_pid : Option Nat) (_addr : Nat) (_buf : List Nat)
    (_size : Nat) : Except PyErr Unit × ProcFS :=
  (Except.error PyErr.notImplementedError, fs)

/-- A call `p.write_memory(addr, buf)` or `p.write_memory(addr, buf, size)`
dispatched through the class dict: the resolved definition takes
`(base_address, write_buffer, size)`, so the contract's two-argument call
fails arity checking with `TypeError`, and a three-argument call runs the
`NotImplementedError` body. -/
def linuxCallWriteMemory (fs : ProcFS) (pid : Option Nat) (addr : Nat) (buf : List Nat)
    (sizeArg : Option Nat) : Except PyErr Unit × ProcFS :=
  match linuxClassWriteMemory with
  | WriteMemoryDef.firstDef =>
    match sizeArg with
    | none => linuxWriteMemoryFirstDef fs pid addr buf
    | some _ => (Except.error PyErr.typeError, fs)
  | WriteMemoryDef.secondDef =>
    match sizeArg with
    | none => (Except.error PyErr.typeError, fs)
    | some sz => linuxWriteMemorySecondDef fs pid addr buf sz

/-- C5: on the Linux backend every call to `write_memory` fails — the
second, differently-signed definition shadows the first, so a
two-argument call is an arity `TypeError` and a three-argument call
raises `NotImplementedError` — and the target memory is unchanged in
either case. -/
theorem linuxWriteMemory_always_fails (fs : ProcFS) (pid : Option Nat) (addr : Nat)
    (buf : List Nat) (sizeArg : Option Nat) :
    linuxClassWriteMemory = WriteMemoryDef.secondDef
      ∧ failed (linuxCallWriteMemory fs pid addr buf sizeArg).1 = true
      ∧ (linuxCallWriteMemory fs pid addr buf sizeArg).2 = fs := by
  refine ⟨rfl, ?_, ?_⟩ <;> cases sizeArg <;> rfl

/- ===================================================================
   Windows backend (`windows.py`).  The handle state is
   `self.process_handle`, an `Option Nat`; `close()` ends with
   `self.process_handle = None`.

   `ctypes.windll` foreign calls raise Python exceptions only for
   argument-conversion problems (`BufferError`/`ValueError`/`TypeError`,
   which the source rewrites to `MemEditError`); a `FALSE`/zero return
   value from the API itself raises nothing.  `read_memory` and
   `write_memory` never inspect that return value.
   =================================================================== -/

/-- The Windows kernel state visible to the backend: which handle values
are open process handles, and the target's memory. -/
structure WinSys where
  validHandle : Nat → Bool
  winMem : Nat → Option Nat

/-- Model of `kernel32.ReadProcessMemory`: succeeds (returning the copied bytes)
only for a valid handle and a fully mapped readable range; otherwise it
returns `FALSE` having copied nothing. -/
def readProcessMemory (sys : WinSys) (h : Option Nat) (addr n : Nat) : Option (List Nat) :=
  match h with
  | none => none
  | some hd => if sys.validHandle hd then readRange sys.winMem addr n else none

/-- Model of `kernel32.WriteProcessMemory`: succeeds (returning the updated
memory) only for a valid handle and a fully mapped range. -/
def writeProcessMemory (sys : WinSys) (h : Option Nat) (addr : Nat) (bs : List Nat) :
    Option (Nat → Option Nat) :=
  match h with
  | none => none
  | some hd => if sys.validHandle hd then writeBytes sys.winMem addr bs else none

/-- Embedding of `windows.Process.read_memory(base_address, read_buffer)`: calls the
native primitive and returns `read_buffer` unconditionally — when the
call fails (returns zero) nothing was copied, no exception exists to be
rewritten, and the unchanged buffer is returned normally. -/
def windowsReadMemory (sys : WinSys) (h : Option Nat) (addr : Nat) (buf : List Nat) :
    Except PyErr (List Nat) :=
  match readProcessMemory sys h addr buf.length with
  | some bs => Except.ok bs
  | none => Except.ok buf

/-- Embedding of `windows.Process.write_memory(base_address, write_buffer)`: calls the
native primitive and returns normally regardless of its success flag;
the resulting target memory is returned alongside. -/
def windowsWriteMemory (sys : WinSys) (h : Option Nat) (addr : Nat) (bs : List Nat) :
    Except PyErr Unit × (Nat → Option Nat) :=
  match writeProcessMemory sys h addr bs with
  | some mem2 => (Except.ok (), mem2)
  | none => (Except.ok (), sys.winMem)

/-- Embedding of `windows.Process.close`: `CloseHandle(self.process_handle)` — return
value ignored, no exception even for an invalid or `None` handle — then
`self.process_handle = None`. -/
def windowsClose (_h : Option Nat) : Except PyErr Unit × Option Nat :=
  (Except.ok (), none)

/-- A concrete Windows machine: handle 7 is the only open handle and
only addresses 0–3 are mapped (each holding byte 9). -/
def cWinSys : WinSys := ⟨fun hd => hd == 7, fun a => if a < 4 then some 9 else none⟩

/-- C2: reading an unmapped range is claimed to raise an access error on
every backend.  On the Windows backend it does not: with live handle 7
and the unmapped address 100, `ReadProcessMemory` fails returning zero,
the code never checks the flag, and `read_memory` returns the unchanged
two-byte buffer normally. -/
theorem windowsReadMemory_unmapped_returns_normally :
    windowsReadMemory cWinSys (some 7) 100 [5, 5] = Except.ok [5, 5]
      ∧ failed (windowsReadMemory cWinSys (some 7) 100 [5, 5]) = false := by
  exact ⟨rfl, rfl⟩

/- ===================================================================
   Handle lifecycle (C6): the operations of the claim as a step function
   over the Linux handle state `self.pid : Option Nat`.
   =================================================================== -/

/-- The operations the lifecycle claim quantifies over, with their
arguments. -/
inductive LinuxOp where
  | readOp (addr n : Nat)
  | writeOp (addr : Nat) (buf : List Nat) (sizeArg : Option Nat)
  | listOp (writeableOnly : Bool)
  | closeOp

/-- Result value of a Linux backend operation. -/
inductive LinuxResult where
  | bytesRes (bs : List Nat)
  | regionsRes (rs : List (Nat × Nat))
  | unitRes

/-- One operation against a Linux `Process` object whose `self.pid` is
`pid`: the returned triple is (outcome, new `self.pid`, new `/proc`
state). -/
def linuxStep (fs : ProcFS) (alive : Nat → Bool) (pid : Option Nat) :
    LinuxOp → Except PyErr LinuxResult × Option Nat × ProcFS
  | LinuxOp.readOp addr n =>
    ((linuxReadMemory fs pid addr n).map LinuxResult.bytesRes, pid, fs)
  | LinuxOp.writeOp addr buf sizeArg =>
    match linuxCallWriteMemory fs pid addr buf sizeArg with
    | (r, fs2) => (r.map fun _ => LinuxResult.unitRes, pid, fs2)
  | LinuxOp.listOp wo =>
    ((linuxListMappedRegions fs pid wo).map LinuxResult.regionsRes, pid, fs)
  | LinuxOp.closeOp =>
    match linuxClose alive pid with
    | (r, pid2) => (r.map fun _ => LinuxResult.unitRes, pid2, fs)

/-- C6 counterexample: on the Windows backend a closed handle does not
make every operation fail — `read_memory` on the closed handle (handle
field `None`) returns the unchanged buffer normally, even for a mapped
address of the target. -/
theorem windowsReadMemory_closed_returns_normally :
    windowsReadMemory cWinSys none 0 [5, 5] = Except.ok [5, 5]
      ∧ failed (windowsReadMemory cWinSys none 0 [5, 5]) = false := by
  exact ⟨rfl, rfl⟩

/-- C6 (amended): the live-to-closed transition is one-way, and on the
Linux backend every operation of the claim (`read_memory`,
`write_memory`, `list_mapped_regions`) fails on a closed handle, as does
a second `close`.  On the Windows backend, however, `read_memory` and
`write_memory` on a closed handle return normally without transferring
any bytes (their failed native calls are never checked), and a second
`close` also returns normally; no operation restores a closed handle. -/
theorem closed_handle_one_way (fs : ProcFS) (alive : Nat → Bool) (sys : WinSys)
    (addr : Nat) (bs : List Nat) :
    (∀ op : LinuxOp, failed (linuxStep fs alive none op).1 = true
        ∧ (linuxStep fs alive none op).2.1 = none)
      ∧ windowsReadMemory sys none addr bs = Except.ok bs
      ∧ (windowsWriteMemory sys none addr bs).1 = Except.ok ()
          ∧ (windowsWriteMemory sys none addr bs).2 = sys.winMem
      ∧ (windowsClose none).2 = none := by
  refine ⟨?_, rfl, rfl, rfl, rfl⟩
  intro op
  cases op with
  | readOp addr n => exact ⟨rfl, rfl⟩
  | writeOp addr buf sizeArg => cases sizeArg <;> exact ⟨rfl, rfl⟩
  | listOp wo => exact ⟨rfl, rfl⟩
  | closeOp => exact ⟨rfl, rfl⟩

/- ===================================================================
   `linux.Process.get_path` (C7).  The source opens the string literal
   `'/proc/{}/cmdline'` without ever calling `.format(self.pid)`, so the
   opened path is the literal text with the braces in it, which matches
   no `/proc` entry; the `FileNotFoundError` is caught and `''` is
   returned — for every pid.
   =================================================================== -/

/-- Files visible to `open(path, 'rb')`: path text to raw byte content. -/
structure CmdlineFS where
  files : List (String × List Nat)

/-- Look a path up in the filesystem. -/
def fsLookup : List (String × List Nat) → String → Option (List Nat)
  | [], _ => none
  | (p, c) :: rest, q => if p = q then some c else fsLookup rest q

/-- Model of `f.read().decode().split('\x00')[0]`: the first null-terminated
token of the cmdline bytes. -/
def firstNullToken : List Nat → List Nat
  | [] => []
  | b :: rest => if b = 0 then [] else b :: firstNullToken rest

/-- The path text `get_path` opens: the unformatted template (the source
never applies `.format(self.pid)` to it). -/
def linuxGetPathTarget : String := "/proc/\x7b\x7d/cmdline"

/-- Embedding of `linux.Process.get_path`: open the (unformatted) template path, take
the first null-terminated token, and turn `FileNotFoundError` into `''`.
The pid parameter mirrors `self.pid`; the body never uses it. -/
def linuxGetPath (fs : CmdlineFS) (_pid : Nat) : Except PyErr (List Nat) :=
  match fsLookup fs.files linuxGetPathTarget with
  | some content => Except.ok (firstNullToken content)
  | none => Except.ok []

/-- A `/proc` with pid 1234 whose cmdline is `/bin/app\0--flag`. -/
def cCmdFS : CmdlineFS :=
  ⟨[("/proc/1234/cmdline", [47, 98, 105, 110, 47, 97, 112, 112, 0, 45, 45, 102, 108, 97, 103])]⟩

/-- C7: `get_path` is claimed to return the first null-terminated token
of `/proc/<pid>/cmdline` for a live handle.  With pid 1234 whose cmdline
starts `/bin/app`, the code instead returns the empty string: the
missing `.format(self.pid)` makes it open the literal template path,
which never exists. -/
theorem linuxGetPath_always_empty :
    linuxGetPath cCmdFS 1234 = Except.ok []
      ∧ firstNullToken [47, 98, 105, 110, 47, 97, 112, 112, 0, 45, 45, 102, 108, 97, 103]
          = [47, 98, 105, 110, 47, 97, 112, 112]
      ∧ fsLookup cCmdFS.files "/proc/1234/cmdline" ≠ none := by
  refine ⟨rfl, rfl, ?_⟩
  intro hcon
  rw [show fsLookup cCmdFS.files "/proc/1234/cmdline"
      = some [47, 98, 105, 110, 47, 97, 112, 112, 0, 45, 45, 102, 108, 97, 103] from rfl] at hcon
  cases hcon

/- ===================================================================
   `Process.open_process` (C1): a `@contextmanager` generator whose body
   is `process = cls(process_id); yield process; process.close()`.  The
   with-statement protocol runs the code after the yield only when the
   body completes normally; when the body raises, the exception is thrown
   into the generator at the yield, and with no `try`/`finally` around
   the yield the post-yield code never runs.
   =================================================================== -/

/-- Instrumentation counters for scoped acquisition: constructor calls
and `close()` calls. -/
structure AcqCounts where
  opened : Nat
  closed : Nat
  deriving DecidableEq

/-- A `@contextmanager` generator, split at its single yield: the code
before the yield, the code after it, and whether the yield is wrapped in
`try`/`finally` running the post-yield code. -/
structure GenCM where
  enter : AcqCounts → Option PyErr × AcqCounts
  exit : AcqCounts → Option PyErr × AcqCounts
  protectsYield : Bool

/-- The with-statement protocol over such a generator with a body that
either completes normally (`none`) or raises (`some e`). -/
def runWith (cm : GenCM) (bodyErr : Option PyErr) (s : AcqCounts) : Option PyErr × AcqCounts :=
  match cm.enter s with
  | (some e, s1) => (some e, s1)
  | (none, s1) =>
    match bodyErr with
    | none => cm.exit s1
    | some e =>
      if cm.protectsYield then
        match cm.exit s1 with
        | (_, s2) => (some e, s2)
      else (some e, s1)

/-- Embedding of `Process.open_process` as written: construct before the yield, close
after it, and no `try`/`finally` around the yield. -/
def openProcessCM : GenCM :=
  ⟨fun s => (none, ⟨s.opened + 1, s.closed⟩),
   fun s => (none, ⟨s.opened, s.closed + 1⟩),
   false⟩

/-- C1: `close()` is claimed to run exactly once on every exit path of
the `open_process` body.  It runs exactly once on normal completion, but
when the body raises, the exception propagates from the unprotected
yield and `close()` never runs. -/
theorem openProcess_close_skipped_on_exception :
    (runWith openProcessCM none ⟨0, 0⟩).2.closed = 1
      ∧ (runWith openProcessCM (some PyErr.osError) ⟨0, 0⟩).2.closed = 0
      ∧ (runWith openProcessCM (some PyErr.osError) ⟨0, 0⟩).1 = some PyErr.osError := by
  exact ⟨rfl, rfl, rfl⟩

/- ===================================================================
   `abstract.Process.search_addresses` (C9).  The source is generic in
   the buffer: `read_buffer = copy.copy(needle_buffer)` is re-filled by
   `self.read_memory(address, read_buffer)` at each candidate address and
   compared to the needle — bitwise (`bytes(read_buffer) ==
   bytes(needle_buffer)`) when `verbatim`, by `utils.ctypes_equal`
   otherwise.  The embedding is parametric in the same pieces: the
   re-read function, the `bytes()` view, and the ctypes comparison.
   =================================================================== -/

/-- Embedding of `Process.search_addresses(addresses, needle_buffer, verbatim)`. -/
def searchAddresses {α : Type} (readCt : Nat → Except PyErr α) (bytesOf : α → List Nat)
    (ctEq : α → α → Except PyErr Bool) (needle : α) (verbatim : Bool) :
    List Nat → Except PyErr (List Nat)
  | [] => Except.ok []
  | a :: rest =>
    match readCt a with
    | Except.error e => Except.error e
    | Except.ok v =>
      match (if verbatim then Except.ok (bytesOf v == bytesOf needle) else ctEq needle v) with
      | Except.error e => Except.error e
      | Except.ok m =>
        match searchAddresses readCt bytesOf ctEq needle verbatim rest with
        | Except.error e => Except.error e
        | Except.ok tail => Except.ok (if m then a :: tail else tail)

/-- Whether the value re-read at `a` matches the needle under the
requested comparison mode. -/
def addrMatches {α : Type} (readCt : Nat → Except PyErr α) (bytesOf : α → List Nat)
    (ctEq : α → α → Except PyErr Bool) (needle : α) (verbatim : Bool) (a : Nat) : Bool :=
  match readCt a with
  | Except.error _ => false
  | Except.ok v =>
    if verbatim then bytesOf v == bytesOf needle
    else
      match ctEq needle v with
      | Except.ok b => b
      | Except.error _ => false

lemma searchAddresses_eq_filter {α : Type} (readCt : Nat → Except PyErr α)
    (bytesOf : α → List Nat) (ctEq : α → α → Except PyErr Bool) (needle : α) (verbatim : Bool) :
    ∀ (addrs found : List Nat),
      searchAddresses readCt bytesOf ctEq needle verbatim addrs = Except.ok found →
      found = addrs.filter (addrMatches readCt bytesOf ctEq needle verbatim) := by
  intro addrs
  induction addrs with
  | nil =>
    intro found h
    simp only [searchAddresses, Except.ok.injEq] at h
    simp [← h]
  | cons a rest ih =>
    intro found h
    unfold searchAddresses at h
    cases hv : readCt a with
    | error e =>
      simp only [hv] at h
      exact Except.noConfusion h
    | ok v =>
      simp only [hv] at h
      cases hm : (if verbatim then Except.ok (bytesOf v == bytesOf needle) else ctEq needle v) with
      | error e =>
        simp only [hm] at h
        exact Except.noConfusion h
      | ok m =>
        simp only [hm] at h
        cases ht : searchAddresses readCt bytesOf ctEq needle verbatim rest with
        | error e =>
          simp only [ht] at h
          exact Except.noConfusion h
        | ok tail =>
          simp only [ht, Except.ok.injEq] at h
          have htail := ih tail ht
          have hmatch : addrMatches readCt bytesOf ctEq needle verbatim a = m := by
            unfold addrMatches
            rw [hv]
            cases hverb : verbatim with
            | true =>
              rw [hverb] at hm
              simp only [if_true] at hm
              injection hm
            | false =>
              rw [hverb] at hm
              simp only [if_false, Bool.false_eq_true] at hm ⊢
              rw [hm]
          rw [← h, htail, List.filter_cons, hmatch]

/-- C9: whenever `search_addresses` returns, its result is a sublist of
the candidate list (never an address absent from it), and an input
address is in the result iff the value re-read there matches the needle
under the requested comparison mode (bitwise when `verbatim`,
`ctypes_equal` otherwise). -/
theorem searchAddresses_sublist_and_matches {α : Type} (readCt : Nat → Except PyErr α)
    (bytesOf : α → List Nat) (ctEq : α → α → Except PyErr Bool) (needle : α) (verbatim : Bool)
    (addrs found : List Nat)
    (h : searchAddresses readCt bytesOf ctEq needle verbatim addrs = Except.ok found) :
    found.Sublist addrs
      ∧ ∀ a, a ∈ found ↔
          (a ∈ addrs ∧ addrMatches readCt bytesOf ctEq needle verbatim a = true) := by
  have hf := searchAddresses_eq_filter readCt bytesOf ctEq needle verbatim addrs found h
  subst hf
  exact ⟨List.filter_sublist addrs, fun a => List.mem_filter⟩

/-- The re-read function of the C9 witness machine: address 10 holds
bytes `[1, 2]`, address 20 holds `[3, 4]`, everything else is unmapped. -/
def wReadCt : Nat → Except PyErr (List Nat) :=
  fun a => if a = 10 then Except.ok [1, 2] else if a = 20 then Except.ok [3, 4]
    else Except.error PyErr.osError

/-- A total comparison for the C9 witness. -/
def wCtEq : List Nat → List Nat → Except PyErr Bool :=
  fun x y => Except.ok (x == y)

/-- Witness for C9: probing `[10, 20]` for needle bytes `[1, 2]` in
verbatim mode returns exactly `[10]`, a sublist of the input satisfying
the match characterisation. -/
theorem searchAddresses_sublist_and_matches_witness :
    searchAddresses wReadCt id wCtEq [1, 2] true [10, 20] = Except.ok [10]
      ∧ (List.Sublist [10] [10, 20]
          ∧ ∀ a, a ∈ ([10] : List Nat) ↔
              (a ∈ ([10, 20] : List Nat) ∧ addrMatches wReadCt id wCtEq [1, 2] true a = true)) := by
  refine ⟨rfl, ?_⟩
  exact searchAddresses_sublist_and_matches wReadCt id wCtEq [1, 2] true [10, 20] [10] rfl

/- ===================================================================
   `abstract.Process.deref_struct_pointer` (C10).

       base = self.read_memory(base_address, ctypes.c_void_p()).value
       values = [self.read_memory(base + offset, buffer) for offset, buffer in targets]

   `ctypes.c_void_p.value` is `None` when the stored pointer is NULL, so
   a zero pointer makes `base + offset` raise `TypeError` inside the
   comprehension (unless the target list is empty, in which case the
   comprehension never evaluates it).  The embedding is parametric in the
   backend's `read_memory`, given as `read addr size` returning bytes.
   =================================================================== -/

/-- Model of `ctypes.c_void_p(...).value`: `None` for a NULL pointer, the integer
address otherwise. -/
def cVoidPValue (bs : List Nat) : Option Nat :=
  if decodeLE bs = 0 then none else some (decodeLE bs)

/-- Embedding of `Process.deref_struct_pointer(base_address, targets)`, with `targets`
a list of `(offset, buffer size)` pairs and `ptrSize` the platform
pointer width. -/
def derefStructPointer (read : Nat → Nat → Except PyErr (List Nat)) (ptrSize base : Nat)
    (targets : List (Nat × Nat)) : Except PyErr (List (List Nat)) :=
  match read base ptrSize with
  | Except.error e => Except.error e
  | Except.ok pb =>
    match cVoidPValue pb with
    | none =>
      match targets with
      | [] => Except.ok []
      | _ :: _ => Except.error PyErr.typeError
    | some p => targets.mapM fun t => read (p + t.1) t.2

/-- The composition the claim describes: read the pointer-sized value `P`
at `base`, then read each `(offset, size)` target at `P + offset`. -/
def derefStructPointerSpec (read : Nat → Nat → Except PyErr (List Nat)) (ptrSize base : Nat)
    (targets : List (Nat × Nat)) : Except PyErr (List (List Nat)) :=
  match read base ptrSize with
  | Except.error e => Except.error e
  | Except.ok pb => targets.mapM fun t => read (decodeLE pb + t.1) t.2

/-- C10 (amended): `deref_struct_pointer` returns exactly the composition
of its constituent `read_memory` calls — same values, same failures —
provided the pointer read at the base address is nonzero; a NULL pointer
is rendered as Python `None` by `c_void_p.value` and makes the address
arithmetic raise `TypeError` before any field read happens. -/
theorem derefStructPointer_refines (read : Nat → Nat → Except PyErr (List Nat))
    (ptrSize base : Nat) (targets : List (Nat × Nat))
    (h : ∀ pb, read base ptrSize = Except.ok pb → decodeLE pb ≠ 0) :
    derefStructPointer read ptrSize base targets
      = derefStructPointerSpec read ptrSize base targets := by
  unfold derefStructPointer derefStructPointerSpec
  cases hr : read base ptrSize with
  | error e => rfl
  | ok pb =>
    have hnz := h pb hr
    simp [cVoidPValue, hnz]

/-- The C10 witness machine: every read succeeds and returns bytes of 1,
so the pointer read at the base is nonzero. -/
def wDerefRead : Nat → Nat → Except PyErr (List Nat) :=
  fun _ n => Except.ok (List.replicate n 1)

/-- Witness for the amended C10 theorem: with a nonzero stored pointer,
dereferencing one `(0, 4)` field agrees with the manual composition and
yields the four bytes read at the pointed-to address. -/
theorem derefStructPointer_refines_witness :
    (∀ pb, wDerefRead 100 8 = Except.ok pb → decodeLE pb ≠ 0)
      ∧ derefStructPointer wDerefRead 8 100 [(0, 4)]
          = derefStructPointerSpec wDerefRead 8 100 [(0, 4)]
      ∧ derefStructPointer wDerefRead 8 100 [(0, 4)] = Except.ok [[1, 1, 1, 1]] := by
  have hnz : ∀ pb, wDerefRead 100 8 = Except.ok pb → decodeLE pb ≠ 0 := by
    intro pb hpb
    have hpb' : pb = List.replicate 8 1 := by
      have : Except.ok (List.replicate 8 1) = (Except.ok pb : Except PyErr (List Nat)) := hpb
      injection this with h'
      exact h'.symm
    rw [hpb']
    decide
  exact ⟨hnz, derefStructPointer_refines wDerefRead 8 100 [(0, 4)] hnz, rfl⟩

/-- The C10 counterexample machine: every read succeeds and returns zero
bytes, so the pointer stored at the base address is NULL while the
low addresses the manual composition would read are readable. -/
def zDerefRead : Nat → Nat → Except PyErr (List Nat) :=
  fun _ n => Except.ok (List.replicate n 0)

/-- C10 counterexample: with a NULL stored pointer and a one-entry field
table, the manual composition succeeds (reading at address `0 + 0`), but
`deref_struct_pointer` raises `TypeError` — a failure mode none of its
constituent reads has. -/
theorem derefStructPointer_null_diverges :
    derefStructPointer zDerefRead 8 100 [(0, 4)] = Except.error PyErr.typeError
      ∧ derefStructPointerSpec zDerefRead 8 100 [(0, 4)] = Except.ok [[0, 0, 0, 0]]
      ∧ derefStructPointer zDerefRead 8 100 [(0, 4)]
          ≠ derefStructPointerSpec zDerefRead 8 100 [(0, 4)] := by
  refine ⟨rfl, rfl, ?_⟩
  intro hcon
  rw [show derefStructPointer zDerefRead 8 100 [(0, 4)] = Except.error PyErr.typeError from rfl,
    show derefStructPointerSpec zDerefRead 8 100 [(0, 4)] = Except.ok [[0, 0, 0, 0]] from rfl]
    at hcon
  exact Except.noConfusion hcon
